import Mathlib

/-!
Verification of the ball-physics simulation core (Vector3, PhysicsBody, Ball,
PhysicsWorld) against its natural-language specification.

Embedding conventions:
* `float` is modelled by `ℚ` (exact arithmetic; all float literals of the source
  are carried over verbatim as rationals, e.g. `0.999 = 999/1000`).
* `std::sqrt` is not rational, so every function that computes a Euclidean
  magnitude takes an explicit square-root routine `sqrtf : ℚ → ℚ` as a
  parameter; concrete evaluations instantiate it with `ratSqrt`, which agrees
  with the real square root on perfect-square rationals (all concrete inputs
  used below are chosen to have perfect-square squared magnitudes).
  The comparison `distance < r` of `PhysicsBody::isCollidingWith` is translated
  by the exact equivalence `Real.sqrt d < r ↔ 0 < r ∧ d < r*r` (for `d ≥ 0`),
  which eliminates the square root there.
* the C library `rand()` is modelled by a stream `rng : ℕ → ℚ` of values
  standing for `rand()/RAND_MAX`, together with a cursor that advances by one
  per modelled `rand()` call.
* `Ball` is a subclass of `PhysicsBody` adding `isHeld` and `spinDamping`
  (plus a colour and an id that never influence the simulation and are
  omitted); the class hierarchy is flattened into one record with an `isBall`
  tag standing for the `dynamic_cast<Ball*>` test used by the world.
-/

namespace Phys

/-- 3D vector over ℚ, mirroring the `Vector3` class (32-bit floats in the
source). -/
structure Vector3 where
  x : ℚ
  y : ℚ
  z : ℚ
deriving DecidableEq, Repr

/-- `Vector3::operator+`. -/
def Vector3.add (a b : Vector3) : Vector3 := ⟨a.x + b.x, a.y + b.y, a.z + b.z⟩

/-- `Vector3::operator-`. -/
def Vector3.sub (a b : Vector3) : Vector3 := ⟨a.x - b.x, a.y - b.y, a.z - b.z⟩

/-- `Vector3::operator*(float scalar)`. -/
def Vector3.scale (a : Vector3) (c : ℚ) : Vector3 := ⟨a.x * c, a.y * c, a.z * c⟩

/-- `Vector3::operator/(float scalar)`. -/
def Vector3.sdiv (a : Vector3) (c : ℚ) : Vector3 := ⟨a.x / c, a.y / c, a.z / c⟩

instance : Add Vector3 := ⟨Vector3.add⟩

instance : Sub Vector3 := ⟨Vector3.sub⟩

instance : HMul Vector3 ℚ Vector3 := ⟨Vector3.scale⟩

instance : HDiv Vector3 ℚ Vector3 := ⟨Vector3.sdiv⟩

/-- `Vector3::dot`. -/
def Vector3.dot (a b : Vector3) : ℚ := a.x * b.x + a.y * b.y + a.z * b.z

/-- `Vector3::magnitudeSquared`. -/
def Vector3.magnitudeSquared (v : Vector3) : ℚ := v.x * v.x + v.y * v.y + v.z * v.z

/-- `Vector3::ZERO`. -/
def Vector3.ZERO : Vector3 := ⟨0, 0, 0⟩

/-- `Vector3::normalized`, parametric in the square-root routine:
`mag = sqrt(x²+y²+z²); if (mag > 0.0001f) return *this / mag; return (0,0,0)`. -/
def Vector3.normalizedVia (sqrtf : ℚ → ℚ) (v : Vector3) : Vector3 :=
  let mag := sqrtf v.magnitudeSquared
  if 1/10000 < mag then v / mag else ⟨0, 0, 0⟩

/-- Largest natural whose square is at most `n` (small-input replacement for
`Nat.sqrt` that unfolds by kernel reduction). -/
def natSqrtFold (n : ℕ) : ℕ :=
  (List.range (n + 1)).foldl (fun acc m => if m * m ≤ n then m else acc) 0

/-- Executable square-root routine used to instantiate `sqrtf` at concrete
inputs: exact (equal to the real square root) on every nonnegative rational
whose numerator and denominator are perfect squares, which covers all concrete
evaluations in this file. -/
def ratSqrt (q : ℚ) : ℚ :=
  if q < 0 then 0 else (natSqrtFold q.num.toNat : ℚ) / (natSqrtFold q.den : ℚ)

/-- Flattened `PhysicsBody`/`Ball` state: kinematic state, material
properties, flags. `isBall`, `isHeld`, `spinDamping` belong to the `Ball`
subclass (`isBall = false` for a plain `PhysicsBody`); the ball's colour and
id do not influence the simulation and are omitted. -/
structure PhysicsBody where
  position : Vector3
  velocity : Vector3
  acceleration : Vector3
  force : Vector3
  mass : ℚ
  restitution : ℚ
  friction : ℚ
  radius : ℚ
  isStatic : Bool
  isActive : Bool
  isBall : Bool
  isHeld : Bool
  spinDamping : ℚ
deriving DecidableEq, Repr

/-- `PhysicsBody::applyForce`: no-op if static, else `force += f`. -/
def PhysicsBody.applyForce (b : PhysicsBody) (f : Vector3) : PhysicsBody :=
  if b.isStatic = true then b else { b with force := b.force + f }

/-- `PhysicsBody::applyImpulse`: no-op if static, else `velocity += impulse / mass`. -/
def PhysicsBody.applyImpulse (b : PhysicsBody) (impulse : Vector3) : PhysicsBody :=
  if b.isStatic = true then b else { b with velocity := b.velocity + impulse / b.mass }

/-- `PhysicsBody::getInverseMass`: `0` for static bodies, else `1/mass`. -/
def PhysicsBody.getInverseMass (b : PhysicsBody) : ℚ :=
  if b.isStatic = true then 0 else 1 / b.mass

/-- `PhysicsBody::update` (Euler integration):
no-op unless active and non-static; otherwise
`acceleration = force/mass + (0,-9.81,0)`, `velocity += acceleration*dt`,
`velocity *= 0.999`, `position += velocity*dt`, `force = ZERO`. -/
def PhysicsBody.update (b : PhysicsBody) (deltaTime : ℚ) : PhysicsBody :=
  if b.isActive = false ∨ b.isStatic = true then b
  else
    let acceleration := b.force / b.mass + (⟨0, -(981/100), 0⟩ : Vector3)
    let velocity := (b.velocity + acceleration * deltaTime) * (999/1000 : ℚ)
    let position := b.position + velocity * deltaTime
    { b with acceleration := acceleration, velocity := velocity,
             position := position, force := Vector3.ZERO }

/-- `Ball::update`: no-op while held; otherwise base integration, then
`velocity *= spinDamping`, then the floor clamp
(`if position.y < radius { position.y = radius; if velocity.y < 0
velocity.y = -velocity.y * restitution }`). -/
def Ball.update (b : PhysicsBody) (deltaTime : ℚ) : PhysicsBody :=
  if b.isHeld = true then b
  else
    let b1 := PhysicsBody.update b deltaTime
    let b2 := { b1 with velocity := b1.velocity * b1.spinDamping }
    if b2.position.y < b2.radius then
      let b3 := { b2 with position := { b2.position with y := b2.radius } }
      if b3.velocity.y < 0 then
        { b3 with velocity := { b3.velocity with y := -b3.velocity.y * b3.restitution } }
      else b3
    else b2

/-- The virtual dispatch of `body->update(dt)`: a `Ball` runs `Ball::update`,
a plain body runs `PhysicsBody::update`. -/
def PhysicsBody.dispatchUpdate (b : PhysicsBody) (deltaTime : ℚ) : PhysicsBody :=
  if b.isBall = true then Ball.update b deltaTime else PhysicsBody.update b deltaTime

/-- `PhysicsBody::isCollidingWith`: false unless both bodies are active, then
`distance < radius + other.radius`. The source compares
`sqrt(d) < r`; for `d ≥ 0` this is exactly `0 < r ∧ d < r*r`, which is the
form used here (no square root needed). -/
def PhysicsBody.isCollidingWith (a b : PhysicsBody) : Bool :=
  a.isActive && b.isActive &&
    decide (0 < a.radius + b.radius ∧
      (a.position - b.position).magnitudeSquared <
        (a.radius + b.radius) * (a.radius + b.radius))

/-- `PhysicsBody::PhysicsBody(pos, m, r)`: stores `m` and `r` verbatim, with
default restitution `0.7` and friction `0.5`; performs no validation. -/
def PhysicsBody.ctor (pos : Vector3) (m r : ℚ) : PhysicsBody :=
  { position := pos, velocity := Vector3.ZERO, acceleration := Vector3.ZERO,
    force := Vector3.ZERO, mass := m, restitution := 7/10, friction := 1/2,
    radius := r, isStatic := false, isActive := true,
    isBall := false, isHeld := false, spinDamping := 1 }

/-- `Ball::Ball(pos)`: `PhysicsBody(pos, 0.5, 0.25)` then restitution `0.8`,
friction `0.3`, `spinDamping = 0.95`, not held. -/
def Ball.ctor (pos : Vector3) : PhysicsBody :=
  { PhysicsBody.ctor pos (1/2) (1/4) with
    restitution := 4/5, friction := 3/10, isBall := true, spinDamping := 19/20 }

/-- `Ball::setHeld`: sets the flag; zeroes velocity/acceleration/force when
transitioning to held. -/
def Ball.setHeld (b : PhysicsBody) (held : Bool) : PhysicsBody :=
  if held = true then
    { b with isHeld := held, velocity := Vector3.ZERO,
             acceleration := Vector3.ZERO, force := Vector3.ZERO }
  else { b with isHeld := held }

/-- `PhysicsWorld` state: owned bodies (insertion order), gravity (stored but
never read by the simulation), the six world bounds, the fixed time step and
the substep cap. -/
structure PhysicsWorld where
  bodies : List PhysicsBody
  gravity : Vector3
  minX : ℚ
  maxX : ℚ
  minY : ℚ
  maxY : ℚ
  minZ : ℚ
  maxZ : ℚ
  timeStep : ℚ
  maxSubsteps : ℕ
deriving DecidableEq, Repr

/-- `PhysicsWorld::PhysicsWorld()`: empty body list, gravity `(0,-9.81,0)`,
bounds `[-15,15]×[0,10]×[-15,15]`, `timeStep = 1/60`, `maxSubsteps = 4`. -/
def defaultWorld : PhysicsWorld :=
  { bodies := [], gravity := ⟨0, -(981/100), 0⟩,
    minX := -15, maxX := 15, minY := 0, maxY := 10, minZ := -15, maxZ := 15,
    timeStep := 1/60, maxSubsteps := 4 }

/-- `PhysicsWorld::addBody` (push_back). -/
def PhysicsWorld.addBody (w : PhysicsWorld) (b : PhysicsBody) : PhysicsWorld :=
  { w with bodies := w.bodies ++ [b] }

/-- `PhysicsWorld::createBall`. -/
def PhysicsWorld.createBall (w : PhysicsWorld) (pos : Vector3) : PhysicsWorld :=
  w.addBody (Ball.ctor pos)

/-- `PhysicsWorld::resolveCollision`. Returns the updated pair together with
the advanced rng cursor. Mirrors the source line by line: collision normal
via `normalized()`, separating-pair early return, impulse scalar
`-(1+e)·vAlongNormal / (invA+invB)` (unguarded division), impulse application
`applyImpulse(impulse * ±invMass)`, positional correction, and the random
perturbation for ball-ball pairs (`((rand()/RAND_MAX) - 0.5) * 0.1`
per component, added to A and subtracted from B). -/
def resolveCollision (sqrtf : ℚ → ℚ) (rng : ℕ → ℚ) (k : ℕ) (a b : PhysicsBody) :
    PhysicsBody × PhysicsBody × ℕ :=
  let normal := Vector3.normalizedVia sqrtf (a.position - b.position)
  let velocityAlongNormal := (a.velocity - b.velocity).dot normal
  if 0 < velocityAlongNormal then (a, b, k)
  else
    let restit := min a.restitution b.restitution
    let impulseScalar := (-(1 + restit) * velocityAlongNormal) /
      (a.getInverseMass + b.getInverseMass)
    let impulse := normal * impulseScalar
    let a1 := a.applyImpulse (impulse * a.getInverseMass)
    let b1 := b.applyImpulse (impulse * (-b.getInverseMass))
    let penetrationDepth :=
      (a.radius + b.radius) - sqrtf (a.position - b.position).magnitudeSquared
    let p :=
      if 0 < penetrationDepth then
        let correction : Vector3 := normal * ((4/5) * max (penetrationDepth - 1/100) 0 /
          (a.getInverseMass + b.getInverseMass))
        ({ a1 with position := a1.position + (correction * a.getInverseMass : Vector3) },
         { b1 with position := b1.position - (correction * b.getInverseMass : Vector3) })
      else (a1, b1)
    if a.isBall = true ∧ b.isBall = true then
      let randomOffset : Vector3 :=
        ⟨(rng k - 1/2) * (1/10), (rng (k+1) - 1/2) * (1/10), (rng (k+2) - 1/2) * (1/10)⟩
      ({ p.1 with velocity := p.1.velocity + randomOffset },
       { p.2 with velocity := p.2.velocity - randomOffset }, k + 3)
    else (p.1, p.2, k)

/-- Control-flow predicate: true iff the execution of
`PhysicsWorld::resolveCollision` on this pair reaches a division whose
divisor is zero (the impulse-scalar / positional-correction divisions by
`invA + invB`, or `applyImpulse`'s division by a zero mass of a non-static
body). The separating-pair early return performs no division. -/
def resolveCollisionDividesByZero (sqrtf : ℚ → ℚ) (a b : PhysicsBody) : Bool :=
  let normal := Vector3.normalizedVia sqrtf (a.position - b.position)
  let velocityAlongNormal := (a.velocity - b.velocity).dot normal
  if 0 < velocityAlongNormal then false
  else
    decide (a.getInverseMass + b.getInverseMass = 0) ||
      (!a.isStatic && decide (a.mass = 0)) || (!b.isStatic && decide (b.mass = 0))

/-- One iteration of the inner collision loop: test `isCollidingWith`, resolve
on overlap. -/
def resolvePair (sqrtf : ℚ → ℚ) (rng : ℕ → ℚ) (k : ℕ) (a b : PhysicsBody) :
    PhysicsBody × PhysicsBody × ℕ :=
  if a.isCollidingWith b = true then resolveCollision sqrtf rng k a b else (a, b, k)

/-- Inner loop of `PhysicsWorld::handleCollisions`: body `i` against each
body `j > i` in order, threading the in-place updates of both. -/
def sweep (sqrtf : ℚ → ℚ) (rng : ℕ → ℚ) :
    PhysicsBody → List PhysicsBody → ℕ → PhysicsBody × List PhysicsBody × ℕ
  | a, [], k => (a, [], k)
  | a, b :: rest, k =>
    let p := resolvePair sqrtf rng k a b
    let q := sweep sqrtf rng p.1 rest p.2.2
    (q.1, p.2.1 :: q.2.1, q.2.2)

/-- Outer loop of `PhysicsWorld::handleCollisions`, fuelled by the (invariant)
list length: for each `i`, run the inner sweep, then continue with the
updated tail. -/
def handleCollisionsAux (sqrtf : ℚ → ℚ) (rng : ℕ → ℚ) :
    ℕ → List PhysicsBody → ℕ → List PhysicsBody × ℕ
  | 0, bs, k => (bs, k)
  | _ + 1, [], k => ([], k)
  | fuel + 1, a :: rest, k =>
    let s := sweep sqrtf rng a rest k
    let h := handleCollisionsAux sqrtf rng fuel s.2.1 s.2.2
    (s.1 :: h.1, h.2)

/-- `PhysicsWorld::handleCollisions`: every unordered pair `(i,j)`, `i < j`,
in lexicographic order over the evolving body list. -/
def handleCollisions (sqrtf : ℚ → ℚ) (rng : ℕ → ℚ) (bs : List PhysicsBody) (k : ℕ) :
    List PhysicsBody × ℕ :=
  handleCollisionsAux sqrtf rng bs.length bs k

/-- One axis of `PhysicsWorld::handleWorldBoundaries`: clamp position into
`[lo+r, hi-r]` and reflect the velocity with restitution scaling when moving
into the violated boundary; the returned flag is the source's `collided`
contribution (set only when the velocity is reflected). -/
def clampAxis (lo hi r restit p v : ℚ) : ℚ × ℚ × Bool :=
  if p - r < lo then
    if v < 0 then (lo + r, -v * restit, true) else (lo + r, v, false)
  else if hi < p + r then
    if 0 < v then (hi - r, -v * restit, true) else (hi - r, v, false)
  else (p, v, false)

/-- Per-body step of `PhysicsWorld::handleWorldBoundaries`: skip static
bodies; clamp each axis independently; then the one-shot ground friction
`velocity.x *= 1-friction; velocity.z *= 1-friction` when resting on the
floor (`position.y <= minY + radius + 0.1`) and a reflection happened. -/
def handleWorldBoundary (w : PhysicsWorld) (b : PhysicsBody) : PhysicsBody :=
  if b.isStatic = true then b
  else
    let cx := clampAxis w.minX w.maxX b.radius b.restitution b.position.x b.velocity.x
    let cy := clampAxis w.minY w.maxY b.radius b.restitution b.position.y b.velocity.y
    let cz := clampAxis w.minZ w.maxZ b.radius b.restitution b.position.z b.velocity.z
    let collided := cx.2.2 || cy.2.2 || cz.2.2
    if cy.1 ≤ w.minY + b.radius + 1/10 ∧ collided = true then
      { b with position := ⟨cx.1, cy.1, cz.1⟩,
               velocity := ⟨cx.2.1 * (1 - b.friction), cy.2.1, cz.2.1 * (1 - b.friction)⟩ }
    else
      { b with position := ⟨cx.1, cy.1, cz.1⟩, velocity := ⟨cx.2.1, cy.2.1, cz.2.1⟩ }

/-- `PhysicsWorld::handleWorldBoundaries` over the whole list. -/
def handleWorldBoundaries (w : PhysicsWorld) (bs : List PhysicsBody) : List PhysicsBody :=
  bs.map (handleWorldBoundary w)

/-- One substep of `PhysicsWorld::update`: integrate every body (virtual
dispatch), then pairwise collisions, then world boundaries. The ℕ component
is the rng cursor. -/
def substep (sqrtf : ℚ → ℚ) (rng : ℕ → ℚ) (currentStep : ℚ)
    (s : PhysicsWorld × ℕ) : PhysicsWorld × ℕ :=
  let w := s.1
  let bs1 := w.bodies.map (fun b => b.dispatchUpdate currentStep)
  let hc := handleCollisions sqrtf rng bs1 s.2
  let bs3 := handleWorldBoundaries w hc.1
  ({ w with bodies := bs3 }, hc.2)

/-- The substep loop of `PhysicsWorld::update`:
`while (remaining > 0 && substeps < maxSubsteps) { step = min(remaining,
timeStep); ...; remaining -= step; substeps++ }`, with
`fuel = maxSubsteps - substeps`. -/
def updateLoop (sqrtf : ℚ → ℚ) (rng : ℕ → ℚ) :
    ℕ → ℚ → PhysicsWorld × ℕ → PhysicsWorld × ℕ
  | 0, _, s => s
  | fuel + 1, remaining, s =>
    if 0 < remaining then
      let currentStep := min remaining s.1.timeStep
      updateLoop sqrtf rng fuel (remaining - currentStep)
        (substep sqrtf rng currentStep s)
    else s

/-- `PhysicsWorld::update(deltaTime)` (rng cursor starting at the given
stream's origin). -/
def PhysicsWorld.update (sqrtf : ℚ → ℚ) (rng : ℕ → ℚ) (w : PhysicsWorld)
    (deltaTime : ℚ) : PhysicsWorld :=
  (updateLoop sqrtf rng w.maxSubsteps deltaTime (w, 0)).1

/-- The sizes of the substeps the loop executes, in order (same recursion as
`updateLoop`, recording `min(remaining, timeStep)` of each iteration). -/
def stepSizes (ts : ℚ) : ℕ → ℚ → List ℚ
  | 0, _ => []
  | fuel + 1, r => if 0 < r then min r ts :: stepSizes ts fuel (r - min r ts) else []

/-- A constant rng stream (`rand()/RAND_MAX = 1/2` puts every random
perturbation at exactly zero). -/
def halfRng : ℕ → ℚ := fun _ => 1/2

/-- The local `normal` of `PhysicsWorld::resolveCollision`:
`(a.position - b.position).normalized()`. -/
def collisionNormal (sqrtf : ℚ → ℚ) (a b : PhysicsBody) : Vector3 :=
  Vector3.normalizedVia sqrtf (a.position - b.position)

/-- The local `impulseScalar` of `PhysicsWorld::resolveCollision`:
`-(1 + min(restitutions)) * velocityAlongNormal / (invMassA + invMassB)`. -/
def impulseScalarOf (sqrtf : ℚ → ℚ) (a b : PhysicsBody) : ℚ :=
  (-(1 + min a.restitution b.restitution) *
    ((a.velocity - b.velocity).dot (collisionNormal sqrtf a b))) /
  (a.getInverseMass + b.getInverseMass)

/-- The local `randomOffset` of `PhysicsWorld::resolveCollision`:
`((rand()/RAND_MAX) - 0.5) * 0.1` per component. -/
def randomOffsetOf (rng : ℕ → ℚ) (k : ℕ) : Vector3 :=
  ⟨(rng k - 1/2) * (1/10), (rng (k+1) - 1/2) * (1/10), (rng (k+2) - 1/2) * (1/10)⟩

/-- The body diameter fits the room on every axis:
`min + r ≤ max - r` for X, Y and Z. -/
def fitsIn (w : PhysicsWorld) (r : ℚ) : Prop :=
  w.minX + r ≤ w.maxX - r ∧ w.minY + r ≤ w.maxY - r ∧ w.minZ + r ≤ w.maxZ - r

/-- The containment property of the spec: position within the room bounds
shrunk by the body's own radius, on every axis. -/
def containedIn (w : PhysicsWorld) (b : PhysicsBody) : Prop :=
  (w.minX + b.radius ≤ b.position.x ∧ b.position.x ≤ w.maxX - b.radius) ∧
  (w.minY + b.radius ≤ b.position.y ∧ b.position.y ≤ w.maxY - b.radius) ∧
  (w.minZ + b.radius ≤ b.position.z ∧ b.position.z ≤ w.maxZ - b.radius)

/-- Strict containment: no clamp branch of `handleWorldBoundaries` fires
(position at least `radius` away from every face, non-strictly). -/
def strictlyInside (w : PhysicsWorld) (b : PhysicsBody) : Prop :=
  (w.minX ≤ b.position.x - b.radius ∧ b.position.x + b.radius ≤ w.maxX) ∧
  (w.minY ≤ b.position.y - b.radius ∧ b.position.y + b.radius ≤ w.maxY) ∧
  (w.minZ ≤ b.position.z - b.radius ∧ b.position.z + b.radius ≤ w.maxZ)

/-- A body that never moves by itself: a held ball, or a static plain body
(a static unheld Ball would still get `Ball::update`'s spin damping and
floor clamp). -/
def frozenBody (b : PhysicsBody) : Prop :=
  (b.isBall = true ∧ b.isHeld = true) ∨ (b.isBall = false ∧ b.isStatic = true)

/-! Concrete instances used for witnesses and counterexamples. -/

/-- Two overlapping static bodies at rest (distance 0.3, radii 0.25+0.25). -/
def staticA : PhysicsBody :=
  { PhysicsBody.ctor ⟨0, 0, 0⟩ 1 (1/4) with isStatic := true }

/-- See `staticA`. -/
def staticB : PhysicsBody :=
  { PhysicsBody.ctor ⟨3/10, 0, 0⟩ 1 (1/4) with isStatic := true }

/-- Mass-1/2 body moving head-on into `bodyB2` (overlap 0.2 along x). -/
def bodyA2 : PhysicsBody :=
  { PhysicsBody.ctor ⟨3/10, 0, 0⟩ (1/2) (1/4) with
      velocity := ⟨-1, 0, 0⟩, restitution := 4/5 }

/-- Mass-1/2 body at rest at the origin. -/
def bodyB2 : PhysicsBody :=
  { PhysicsBody.ctor ⟨0, 0, 0⟩ (1/2) (1/4) with restitution := 4/5 }

/-- A held ball at (0,5,0). -/
def heldBallC3 : PhysicsBody := { Ball.ctor ⟨0, 5, 0⟩ with isHeld := true }

/-- A static plain body overlapping `heldBallC3` (distance 0.3 < 0.5). -/
def staticBlockC3 : PhysicsBody :=
  { PhysicsBody.ctor ⟨3/10, 5, 0⟩ 1 (1/4) with isStatic := true }

/-- Default world containing a held ball overlapped by a static block. -/
def worldC3 : PhysicsWorld :=
  { defaultWorld with bodies := [heldBallC3, staticBlockC3] }

/-- A static plain body far from `heldBallC3` (no overlap). -/
def farBlock : PhysicsBody :=
  { PhysicsBody.ctor ⟨5, 5, 0⟩ 1 (1/4) with isStatic := true }

/-- Default world containing only a held ball and a distant static block:
nothing in it can move. -/
def frozenWorld : PhysicsWorld :=
  { defaultWorld with bodies := [heldBallC3, farBlock] }

/-- Default world containing one held ball (used to exercise boundary
containment). -/
def worldC6w : PhysicsWorld := { defaultWorld with bodies := [heldBallC3] }

/-- A static body far outside the room (x = 100). -/
def staticOut : PhysicsBody :=
  { PhysicsBody.ctor ⟨100, 5, 0⟩ 1 (1/4) with isStatic := true }

/-- Default world containing one static body outside the room. -/
def worldC6x : PhysicsWorld := { defaultWorld with bodies := [staticOut] }

/-- An inactive plain body outside the room, moving outward. -/
def inactiveOut : PhysicsBody :=
  { PhysicsBody.ctor ⟨100, 5, 0⟩ 1 (1/4) with
      isActive := false, velocity := ⟨1, 0, 0⟩ }

/-- Default world containing one inactive body outside the room. -/
def worldC8 : PhysicsWorld := { defaultWorld with bodies := [inactiveOut] }

/-- An inactive plain body well inside the room. -/
def inactiveIn : PhysicsBody :=
  { PhysicsBody.ctor ⟨0, 5, 0⟩ 1 (1/4) with
      isActive := false, velocity := ⟨1, 2, 3⟩ }

/-- Default world containing one inactive body inside the room. -/
def worldC8w : PhysicsWorld := { defaultWorld with bodies := [inactiveIn] }

/-- Two balls with exactly coincident centers. -/
def ballP : PhysicsBody := Ball.ctor ⟨1, 1, 1⟩

/-- See `ballP`. -/
def ballQ : PhysicsBody := Ball.ctor ⟨1, 1, 1⟩

/-- Default world containing one free ball above the floor. -/
def worldC10 : PhysicsWorld := { defaultWorld with bodies := [Ball.ctor ⟨0, 5, 0⟩] }

/-! Component lemmas for the vector operations. -/

theorem Vector3.add_def (a b : Vector3) :
    a + b = ⟨a.x + b.x, a.y + b.y, a.z + b.z⟩ := rfl

theorem Vector3.sub_def (a b : Vector3) :
    a - b = ⟨a.x - b.x, a.y - b.y, a.z - b.z⟩ := rfl

theorem Vector3.scale_def (a : Vector3) (c : ℚ) :
    a * c = ⟨a.x * c, a.y * c, a.z * c⟩ := rfl

theorem Vector3.sdiv_def (a : Vector3) (c : ℚ) :
    a / c = ⟨a.x / c, a.y / c, a.z / c⟩ := rfl

/-! The substep loop runs zero iterations on a nonpositive remaining time. -/

theorem updateLoop_nonpos (sqrtf : ℚ → ℚ) (rng : ℕ → ℚ) (fuel : ℕ) (r : ℚ)
    (s : PhysicsWorld × ℕ) (hr : r ≤ 0) : updateLoop sqrtf rng fuel r s = s := by
  cases fuel with
  | zero => rfl
  | succ n => rw [updateLoop, if_neg (not_lt.mpr hr)]

/-- C10: for every world state and every `dt ≤ 0`, `PhysicsWorld::update(dt)`
executes zero substeps: the whole world (hence every body's position,
velocity, acceleration and force) is unchanged, and no collision or boundary
resolution runs. -/
theorem update_nonpos_dt_noop (sqrtf : ℚ → ℚ) (rng : ℕ → ℚ) (w : PhysicsWorld)
    (dt : ℚ) (hdt : dt ≤ 0) : PhysicsWorld.update sqrtf rng w dt = w := by
  rw [PhysicsWorld.update, updateLoop_nonpos sqrtf rng w.maxSubsteps dt (w, 0) hdt]

/-- Witness for C10 at `dt = 0` on a world containing one ball. -/
theorem update_nonpos_dt_noop_witness :
    (0 : ℚ) ≤ 0 ∧ PhysicsWorld.update ratSqrt halfRng worldC10 0 = worldC10 :=
  ⟨le_refl 0, update_nonpos_dt_noop ratSqrt halfRng worldC10 0 (le_refl 0)⟩

/-- C4: for an active, non-static body, one `PhysicsBody::update(dt)` step is
exactly: `acceleration = force/mass + (0,-9.81,0)`;
`velocity += acceleration*dt`; `velocity *= 0.999`;
`position += velocity*dt`; `force = ZERO` — and the step is a no-op (all four
fields unchanged) when the body is inactive or static. -/
theorem physicsBody_update_spec (b : PhysicsBody) (dt : ℚ) :
    (b.isActive = true → b.isStatic = false →
      PhysicsBody.update b dt =
        { b with
          acceleration := b.force / b.mass + (⟨0, -(981/100), 0⟩ : Vector3),
          velocity := (b.velocity +
            (b.force / b.mass + (⟨0, -(981/100), 0⟩ : Vector3)) * dt) * (999/1000 : ℚ),
          position := b.position + ((b.velocity +
            (b.force / b.mass + (⟨0, -(981/100), 0⟩ : Vector3)) * dt) *
              (999/1000 : ℚ)) * dt,
          force := Vector3.ZERO })
    ∧ (b.isActive = false ∨ b.isStatic = true → PhysicsBody.update b dt = b) := by
  constructor
  · intro hA hS
    rw [PhysicsBody.update, if_neg (by simp [hA, hS])]
  · intro h
    rw [PhysicsBody.update, if_pos h]

/-- Witness for C4: the integration formula at a freshly constructed ball and
the no-op at a static body. -/
theorem physicsBody_update_spec_witness :
    (Ball.ctor ⟨0, 5, 0⟩).isActive = true ∧ (Ball.ctor ⟨0, 5, 0⟩).isStatic = false ∧
    PhysicsBody.update (Ball.ctor ⟨0, 5, 0⟩) (1/60) =
      { Ball.ctor ⟨0, 5, 0⟩ with
        acceleration := (Ball.ctor ⟨0, 5, 0⟩).force / (Ball.ctor ⟨0, 5, 0⟩).mass +
          (⟨0, -(981/100), 0⟩ : Vector3),
        velocity := ((Ball.ctor ⟨0, 5, 0⟩).velocity +
          ((Ball.ctor ⟨0, 5, 0⟩).force / (Ball.ctor ⟨0, 5, 0⟩).mass +
            (⟨0, -(981/100), 0⟩ : Vector3)) * (1/60 : ℚ)) * (999/1000 : ℚ),
        position := (Ball.ctor ⟨0, 5, 0⟩).position + (((Ball.ctor ⟨0, 5, 0⟩).velocity +
          ((Ball.ctor ⟨0, 5, 0⟩).force / (Ball.ctor ⟨0, 5, 0⟩).mass +
            (⟨0, -(981/100), 0⟩ : Vector3)) * (1/60 : ℚ)) * (999/1000 : ℚ)) * (1/60 : ℚ),
        force := Vector3.ZERO } ∧
    PhysicsBody.update staticA (1/60) = staticA :=
  ⟨rfl, rfl,
    (physicsBody_update_spec (Ball.ctor ⟨0, 5, 0⟩) (1/60)).1 rfl rfl,
    (physicsBody_update_spec staticA (1/60)).2 (Or.inr rfl)⟩

/-- C1 (the code side): two overlapping static bodies at rest do collide
(`isCollidingWith` is true, so `handleCollisions` calls `resolveCollision`),
the pair is not separating, the combined inverse mass is zero, and
`resolveCollision`'s execution reaches its divisions with that zero divisor —
the resolution is not skipped and the division by zero happens (under IEEE
arithmetic the positional correction then writes non-finite values into the
positions). -/
theorem resolveCollision_static_pair_divides_by_zero :
    staticA.isCollidingWith staticB = true ∧
    staticA.getInverseMass + staticB.getInverseMass = 0 ∧
    resolveCollisionDividesByZero ratSqrt staticA staticB = true :=
  ⟨by with_unfolding_all rfl, by with_unfolding_all rfl, by with_unfolding_all rfl⟩

/-- C9 counterexample: the `PhysicsBody(pos, m, r)` constructor accepts a
non-positive mass and radius without any error, stores them verbatim
(no clamping), and `addBody` inserts the body into the world — so a body with
`mass ≤ 0` and `radius ≤ 0` does enter the world. -/
theorem invalid_body_enters_world :
    ((defaultWorld.addBody (PhysicsBody.ctor ⟨0, 0, 0⟩ (-1) (-1))).bodies.map
      (fun b => (b.mass, b.radius))) = [((-1 : ℚ), (-1 : ℚ))] ∧
    (-1 : ℚ) ≤ 0 :=
  ⟨by with_unfolding_all rfl, by norm_num⟩

/-! The substep loop as a fold over the list of executed step sizes. -/

theorem updateLoop_eq_foldl (sqrtf : ℚ → ℚ) (rng : ℕ → ℚ) (ts : ℚ) :
    ∀ (fuel : ℕ) (r : ℚ) (s : PhysicsWorld × ℕ), s.1.timeStep = ts →
      updateLoop sqrtf rng fuel r s =
        (stepSizes ts fuel r).foldl (fun acc st => substep sqrtf rng st acc) s := by
  intro fuel
  induction fuel with
  | zero => intro r s _; rfl
  | succ n ih =>
    intro r s hts
    by_cases hr : 0 < r
    · rw [updateLoop, if_pos hr, stepSizes, if_pos hr, List.foldl_cons, hts,
        ih (r - min r ts) (substep sqrtf rng (min r ts) s) hts]
    · rw [updateLoop, if_neg hr, stepSizes, if_neg hr, List.foldl_nil]

/-- When more time than `maxSubsteps` full steps remains at every iteration,
every executed step has the fixed size. -/
theorem stepSizes_replicate (ts : ℚ) (hts : 0 < ts) :
    ∀ (fuel : ℕ) (r : ℚ), (fuel : ℚ) * ts < r →
      stepSizes ts fuel r = List.replicate fuel ts := by
  intro fuel
  induction fuel with
  | zero => intro r _; rfl
  | succ n ih =>
    intro r hr
    have hn : (0 : ℚ) ≤ (n : ℚ) * ts := mul_nonneg (Nat.cast_nonneg n) hts.le
    push_cast at hr
    have hle : ts ≤ r := by nlinarith
    have h0 : 0 < r := lt_of_lt_of_le hts hle
    rw [stepSizes, if_pos h0, min_eq_right hle, List.replicate_succ]
    congr 1
    apply ih
    linarith

/-- C5: with `0 < fixedTimeStep` and `dt > maxSubsteps * fixedTimeStep`, the
loop of `PhysicsWorld::update` runs exactly `maxSubsteps` substeps, each of
size `fixedTimeStep`; the total simulated time is
`maxSubsteps * fixedTimeStep` (which is `< dt`: the excess is dropped), and
the update is precisely the fold of those substeps. -/
theorem update_caps_substeps (sqrtf : ℚ → ℚ) (rng : ℕ → ℚ) (w : PhysicsWorld)
    (dt : ℚ) (hts : 0 < w.timeStep)
    (hdt : (w.maxSubsteps : ℚ) * w.timeStep < dt) :
    stepSizes w.timeStep w.maxSubsteps dt =
      List.replicate w.maxSubsteps w.timeStep ∧
    (stepSizes w.timeStep w.maxSubsteps dt).sum =
      (w.maxSubsteps : ℚ) * w.timeStep ∧
    PhysicsWorld.update sqrtf rng w dt =
      ((List.replicate w.maxSubsteps w.timeStep).foldl
        (fun acc st => substep sqrtf rng st acc) (w, 0)).1 := by
  have h1 := stepSizes_replicate w.timeStep hts w.maxSubsteps dt hdt
  refine ⟨h1, ?_, ?_⟩
  · rw [h1, List.sum_replicate, nsmul_eq_mul]
  · rw [PhysicsWorld.update,
      updateLoop_eq_foldl sqrtf rng w.timeStep w.maxSubsteps dt (w, 0) rfl, h1]

/-- Witness for C5 on the default world (`timeStep = 1/60`,
`maxSubsteps = 4`) with `dt = 1/10 > 4/60`. -/
theorem update_caps_substeps_witness :
    (0 : ℚ) < defaultWorld.timeStep ∧
    (defaultWorld.maxSubsteps : ℚ) * defaultWorld.timeStep < 1/10 ∧
    (stepSizes defaultWorld.timeStep defaultWorld.maxSubsteps (1/10) =
      List.replicate defaultWorld.maxSubsteps defaultWorld.timeStep ∧
    (stepSizes defaultWorld.timeStep defaultWorld.maxSubsteps (1/10)).sum =
      (defaultWorld.maxSubsteps : ℚ) * defaultWorld.timeStep ∧
    PhysicsWorld.update ratSqrt halfRng defaultWorld (1/10) =
      ((List.replicate defaultWorld.maxSubsteps defaultWorld.timeStep).foldl
        (fun acc st => substep ratSqrt halfRng st acc) (defaultWorld, 0)).1) := by
  have h1 : (0 : ℚ) < defaultWorld.timeStep := by norm_num [defaultWorld]
  have h2 : (defaultWorld.maxSubsteps : ℚ) * defaultWorld.timeStep < 1/10 := by
    norm_num [defaultWorld]
  exact ⟨h1, h2, update_caps_substeps ratSqrt halfRng defaultWorld (1/10) h1 h2⟩

/-- C2 counterexample: for the concrete non-separating (and non-ball) pair
`bodyA2`, `bodyB2` (mass 1/2 each), the velocity of `a` after
`resolveCollision` is NOT `a.velocity + normal * impulseScalar * a.invMass`
as the claim states (the code further divides by the mass inside
`applyImpulse`; actual new velocity `(4/5,0,0)` vs claimed `(-1/10,0,0)`). -/
theorem claimed_impulse_formula_fails :
    (resolveCollision ratSqrt halfRng 0 bodyA2 bodyB2).1.velocity ≠
      bodyA2.velocity + ((collisionNormal ratSqrt bodyA2 bodyB2 *
        impulseScalarOf ratSqrt bodyA2 bodyB2 : Vector3) *
          bodyA2.getInverseMass : Vector3) :=
  of_decide_eq_true (by with_unfolding_all rfl)

/-- C2 (amended): for every non-separating pair, the impulse
`impulse = normal * impulseScalar` is passed to `applyImpulse` scaled by
`±invMass`, and `applyImpulse` divides its argument by the mass again, so
`a`'s velocity changes by exactly `(normal * impulseScalar * a.invMass) /
a.mass` and `b`'s by exactly `(normal * impulseScalar * (-b.invMass)) /
b.mass` (zero change for a static body), plus, when both bodies are balls,
the symmetric random perturbation (added to `a`, subtracted from `b`). -/
theorem resolveCollision_impulse_application (sqrtf : ℚ → ℚ) (rng : ℕ → ℚ)
    (k : ℕ) (a b : PhysicsBody)
    (h : ¬ 0 < (a.velocity - b.velocity).dot (collisionNormal sqrtf a b)) :
    (resolveCollision sqrtf rng k a b).1.velocity =
      a.velocity + ((collisionNormal sqrtf a b *
        impulseScalarOf sqrtf a b : Vector3) * a.getInverseMass : Vector3) / a.mass +
      (if a.isBall = true ∧ b.isBall = true then randomOffsetOf rng k
       else Vector3.ZERO) ∧
    (resolveCollision sqrtf rng k a b).2.1.velocity =
      b.velocity + ((collisionNormal sqrtf a b *
        impulseScalarOf sqrtf a b : Vector3) * (-b.getInverseMass) : Vector3) / b.mass -
      (if a.isBall = true ∧ b.isBall = true then randomOffsetOf rng k
       else Vector3.ZERO) := by
  simp only [collisionNormal] at h
  rw [resolveCollision, if_neg h]
  simp only [collisionNormal, impulseScalarOf, randomOffsetOf]
  split_ifs with hpen hball hball <;>
    simp only [PhysicsBody.applyImpulse] <;>
    constructor <;>
    split_ifs with hs <;>
    simp [hs, PhysicsBody.getInverseMass, Vector3.add_def, Vector3.sub_def,
      Vector3.scale_def, Vector3.sdiv_def, Vector3.ZERO]

/-- Witness for C2 (amended) at the concrete pair `bodyA2`, `bodyB2`. -/
theorem resolveCollision_impulse_application_witness :
    (¬ 0 < (bodyA2.velocity - bodyB2.velocity).dot
      (collisionNormal ratSqrt bodyA2 bodyB2)) ∧
    ((resolveCollision ratSqrt halfRng 0 bodyA2 bodyB2).1.velocity =
      bodyA2.velocity + ((collisionNormal ratSqrt bodyA2 bodyB2 *
        impulseScalarOf ratSqrt bodyA2 bodyB2 : Vector3) *
          bodyA2.getInverseMass : Vector3) / bodyA2.mass +
      (if bodyA2.isBall = true ∧ bodyB2.isBall = true then randomOffsetOf halfRng 0
       else Vector3.ZERO) ∧
     (resolveCollision ratSqrt halfRng 0 bodyA2 bodyB2).2.1.velocity =
      bodyB2.velocity + ((collisionNormal ratSqrt bodyA2 bodyB2 *
        impulseScalarOf ratSqrt bodyA2 bodyB2 : Vector3) *
          (-bodyB2.getInverseMass) : Vector3) / bodyB2.mass -
      (if bodyA2.isBall = true ∧ bodyB2.isBall = true then randomOffsetOf halfRng 0
       else Vector3.ZERO)) := by
  have hh : ¬ 0 < (bodyA2.velocity - bodyB2.velocity).dot
      (collisionNormal ratSqrt bodyA2 bodyB2) :=
    of_decide_eq_true (by with_unfolding_all rfl)
  exact ⟨hh, resolveCollision_impulse_application ratSqrt halfRng 0 bodyA2 bodyB2 hh⟩

/-- `applyImpulse` with the zero impulse never changes a body. -/
theorem applyImpulse_zero (b : PhysicsBody) : b.applyImpulse Vector3.ZERO = b := by
  rw [PhysicsBody.applyImpulse]
  split_ifs
  · rfl
  · simp [Vector3.add_def, Vector3.sdiv_def, Vector3.ZERO]

/-- C7: when the two centers coincide exactly (and at least one body is
non-static, masses positive, `sqrt 0 = 0`), the `normalized()` guard
(`mag > 0.0001`) makes the collision normal fall back to the zero vector
instead of dividing by the zero distance; `resolveCollision` then leaves both
positions unchanged, changes the velocities only by the (finite) ball-ball
random perturbation, and its execution performs no division by zero. -/
theorem resolveCollision_coincident_centers (sqrtf : ℚ → ℚ) (rng : ℕ → ℚ)
    (k : ℕ) (a b : PhysicsBody)
    (hpos : a.position = b.position) (hma : 0 < a.mass) (hmb : 0 < b.mass)
    (hst : a.isStatic = false ∨ b.isStatic = false) (h0 : sqrtf 0 = 0) :
    collisionNormal sqrtf a b = Vector3.ZERO ∧
    (resolveCollision sqrtf rng k a b).1.position = a.position ∧
    (resolveCollision sqrtf rng k a b).2.1.position = b.position ∧
    (resolveCollision sqrtf rng k a b).1.velocity =
      a.velocity + (if a.isBall = true ∧ b.isBall = true then randomOffsetOf rng k
        else Vector3.ZERO) ∧
    (resolveCollision sqrtf rng k a b).2.1.velocity =
      b.velocity - (if a.isBall = true ∧ b.isBall = true then randomOffsetOf rng k
        else Vector3.ZERO) ∧
    resolveCollisionDividesByZero sqrtf a b = false := by
  have hd : a.position - b.position = (⟨0, 0, 0⟩ : Vector3) := by
    rw [hpos]; simp [Vector3.sub_def]
  have hms : (a.position - b.position).magnitudeSquared = 0 := by
    rw [hd]; simp [Vector3.magnitudeSquared]
  have hnv : Vector3.normalizedVia sqrtf (a.position - b.position) = Vector3.ZERO := by
    simp only [Vector3.normalizedVia, hms, h0]
    norm_num [Vector3.ZERO]
  have hinva : 0 ≤ a.getInverseMass := by
    rw [PhysicsBody.getInverseMass]; split_ifs
    · exact le_refl 0
    · positivity
  have hinvb : 0 ≤ b.getInverseMass := by
    rw [PhysicsBody.getInverseMass]; split_ifs
    · exact le_refl 0
    · positivity
  have hinv : 0 < a.getInverseMass + b.getInverseMass := by
    rcases hst with h | h
    · have ha' : 0 < a.getInverseMass := by
        rw [PhysicsBody.getInverseMass, if_neg (by simp [h])]
        exact one_div_pos.mpr hma
      linarith
    · have hb' : 0 < b.getInverseMass := by
        rw [PhysicsBody.getInverseMass, if_neg (by simp [h])]
        exact one_div_pos.mpr hmb
      linarith
  have hdz : (a.velocity - b.velocity).dot Vector3.ZERO = 0 := by
    simp [Vector3.dot, Vector3.ZERO]
  have hz1 : ∀ c : ℚ, (Vector3.ZERO * c : Vector3) = Vector3.ZERO := by
    intro c; simp [Vector3.scale_def, Vector3.ZERO]
  have hz2 : ∀ v : Vector3, v + Vector3.ZERO = v := by
    intro v; simp [Vector3.add_def, Vector3.ZERO]
  have hz3 : ∀ v : Vector3, v - Vector3.ZERO = v := by
    intro v; simp [Vector3.sub_def, Vector3.ZERO]
  have hmain : resolveCollision sqrtf rng k a b =
      (if a.isBall = true ∧ b.isBall = true then
        ({a with velocity := a.velocity + randomOffsetOf rng k},
         {b with velocity := b.velocity - randomOffsetOf rng k}, k + 3)
       else (a, b, k)) := by
    rw [resolveCollision]
    simp only [hnv, hms, h0, hdz, lt_self_iff_false, if_false, hz1,
      applyImpulse_zero, sub_zero, hz2, hz3, randomOffsetOf]
    split_ifs <;> rfl
  have hdiv : resolveCollisionDividesByZero sqrtf a b = false := by
    rw [resolveCollisionDividesByZero]
    simp only [hnv, hdz, lt_self_iff_false, if_false]
    simp [hinv.ne', hma.ne', hmb.ne']
  refine ⟨by rw [collisionNormal, hnv], ?_, ?_, ?_, ?_, hdiv⟩ <;>
    rw [hmain] <;> split_ifs <;> simp [hz2, hz3]

/-- Witness for C7 at two coincident balls. -/
theorem resolveCollision_coincident_centers_witness :
    ballP.position = ballQ.position ∧ (0 : ℚ) < ballP.mass ∧ (0 : ℚ) < ballQ.mass ∧
    ballP.isStatic = false ∧ ratSqrt 0 = 0 ∧
    (collisionNormal ratSqrt ballP ballQ = Vector3.ZERO ∧
     (resolveCollision ratSqrt halfRng 0 ballP ballQ).1.position = ballP.position ∧
     (resolveCollision ratSqrt halfRng 0 ballP ballQ).2.1.position = ballQ.position ∧
     (resolveCollision ratSqrt halfRng 0 ballP ballQ).1.velocity =
       ballP.velocity + (if ballP.isBall = true ∧ ballQ.isBall = true
         then randomOffsetOf halfRng 0 else Vector3.ZERO) ∧
     (resolveCollision ratSqrt halfRng 0 ballP ballQ).2.1.velocity =
       ballQ.velocity - (if ballP.isBall = true ∧ ballQ.isBall = true
         then randomOffsetOf halfRng 0 else Vector3.ZERO) ∧
     resolveCollisionDividesByZero ratSqrt ballP ballQ = false) := by
  have h1 : ballP.position = ballQ.position := rfl
  have h2 : (0 : ℚ) < ballP.mass := by norm_num [ballP, Ball.ctor, PhysicsBody.ctor]
  have h3 : (0 : ℚ) < ballQ.mass := by norm_num [ballQ, Ball.ctor, PhysicsBody.ctor]
  have h5 : ratSqrt 0 = 0 := by with_unfolding_all rfl
  exact ⟨h1, h2, h3, rfl, h5,
    resolveCollision_coincident_centers ratSqrt halfRng 0 ballP ballQ
      h1 h2 h3 (Or.inl rfl) h5⟩

/-- C9 (amended): construction performs no validation — the constructor is
total, stores any mass/radius verbatim (neither rejected nor clamped), and
`addBody` appends the body unchanged; `createBall` itself only ever
constructs balls with mass `0.5` and radius `0.25`, both positive. -/
theorem body_construction_no_validation (pos : Vector3) (m r : ℚ) (w : PhysicsWorld) :
    (PhysicsBody.ctor pos m r).mass = m ∧
    (PhysicsBody.ctor pos m r).radius = r ∧
    (w.addBody (PhysicsBody.ctor pos m r)).bodies =
      w.bodies ++ [PhysicsBody.ctor pos m r] ∧
    (w.createBall pos).bodies = w.bodies ++ [Ball.ctor pos] ∧
    (Ball.ctor pos).mass = 1/2 ∧ (Ball.ctor pos).radius = 1/4 ∧
    (0 : ℚ) < (Ball.ctor pos).mass ∧ (0 : ℚ) < (Ball.ctor pos).radius :=
  ⟨rfl, rfl, rfl, rfl, rfl, rfl, by norm_num [Ball.ctor, PhysicsBody.ctor],
    by norm_num [Ball.ctor, PhysicsBody.ctor]⟩

/-! Boundary resolution establishes containment. -/

theorem clampAxis_bounds (lo hi r e p v : ℚ) (h : lo + r ≤ hi - r) :
    lo + r ≤ (clampAxis lo hi r e p v).1 ∧ (clampAxis lo hi r e p v).1 ≤ hi - r := by
  rw [clampAxis]
  split_ifs <;> constructor <;> simp <;> linarith

theorem handleWorldBoundary_radius (w : PhysicsWorld) (b : PhysicsBody) :
    (handleWorldBoundary w b).radius = b.radius := by
  simp only [handleWorldBoundary]; split_ifs <;> rfl

theorem handleWorldBoundary_isStatic (w : PhysicsWorld) (b : PhysicsBody) :
    (handleWorldBoundary w b).isStatic = b.isStatic := by
  simp only [handleWorldBoundary]; split_ifs <;> rfl

theorem handleWorldBoundary_contained (w : PhysicsWorld) (b : PhysicsBody)
    (hs : b.isStatic = false) (hf : fitsIn w b.radius) :
    containedIn w (handleWorldBoundary w b) := by
  obtain ⟨h1, h2, h3⟩ := hf
  have c1 := clampAxis_bounds w.minX w.maxX b.radius b.restitution
    b.position.x b.velocity.x h1
  have c2 := clampAxis_bounds w.minY w.maxY b.radius b.restitution
    b.position.y b.velocity.y h2
  have c3 := clampAxis_bounds w.minZ w.maxZ b.radius b.restitution
    b.position.z b.velocity.z h3
  simp only [handleWorldBoundary, hs]
  norm_num
  split_ifs <;> exact ⟨⟨c1.1, c1.2⟩, ⟨c2.1, c2.2⟩, ⟨c3.1, c3.2⟩⟩

theorem substep_contained (sqrtf : ℚ → ℚ) (rng : ℕ → ℚ) (step : ℚ)
    (s : PhysicsWorld × ℕ) :
    ∀ b ∈ (substep sqrtf rng step s).1.bodies, b.isStatic = false →
      fitsIn s.1 b.radius → containedIn s.1 b := by
  intro b hb hs hf
  simp only [substep, handleWorldBoundaries] at hb
  obtain ⟨b0, _, rfl⟩ := List.mem_map.mp hb
  rw [handleWorldBoundary_radius] at hf
  rw [handleWorldBoundary_isStatic] at hs
  exact handleWorldBoundary_contained s.1 b0 hs hf

/-- The substep loop never changes anything but the body list. -/
theorem updateLoop_world_shape (sqrtf : ℚ → ℚ) (rng : ℕ → ℚ) :
    ∀ (fuel : ℕ) (r : ℚ) (s : PhysicsWorld × ℕ),
      (updateLoop sqrtf rng fuel r s).1 =
        { s.1 with bodies := (updateLoop sqrtf rng fuel r s).1.bodies } := by
  intro fuel
  induction fuel with
  | zero => intro r s; rfl
  | succ n ih =>
    intro r s
    by_cases hr : 0 < r
    · rw [updateLoop, if_pos hr]
      exact ih _ _
    · rw [updateLoop, if_neg hr]

theorem updateLoop_contained (sqrtf : ℚ → ℚ) (rng : ℕ → ℚ) :
    ∀ (fuel : ℕ) (r : ℚ) (s : PhysicsWorld × ℕ), 1 ≤ fuel → 0 < r →
      ∀ b ∈ (updateLoop sqrtf rng fuel r s).1.bodies, b.isStatic = false →
        fitsIn (updateLoop sqrtf rng fuel r s).1 b.radius →
        containedIn (updateLoop sqrtf rng fuel r s).1 b := by
  intro fuel
  induction fuel with
  | zero => intro r s hfuel; exact absurd hfuel (by norm_num)
  | succ n ih =>
    intro r s _ hr
    rw [updateLoop, if_pos hr]
    by_cases hn : 1 ≤ n
    · by_cases hr' : 0 < r - min r s.1.timeStep
      · exact ih _ _ hn hr'
      · rw [updateLoop_nonpos sqrtf rng n _ _ (not_lt.mp hr')]
        exact substep_contained sqrtf rng _ s
    · have hn0 : n = 0 := by omega
      subst hn0
      exact substep_contained sqrtf rng _ s

/-- C6 (amended): after any `update` call with positive `dt` (and
`maxSubsteps ≥ 1`), every non-static body whose diameter fits the room on
each axis satisfies `min + radius ≤ position ≤ max - radius` on X, Y and Z.
(Static bodies are skipped by boundary resolution, and a body wider than the
room cannot satisfy both sides, hence the two restrictions.) -/
theorem update_contains_bodies (sqrtf : ℚ → ℚ) (rng : ℕ → ℚ) (w : PhysicsWorld)
    (dt : ℚ) (hmax : 1 ≤ w.maxSubsteps) (hdt : 0 < dt) :
    ∀ b ∈ (PhysicsWorld.update sqrtf rng w dt).bodies, b.isStatic = false →
      fitsIn w b.radius → containedIn w b := by
  intro b hb hs hf
  have hshape := updateLoop_world_shape sqrtf rng w.maxSubsteps dt (w, 0)
  have hf' : fitsIn (updateLoop sqrtf rng w.maxSubsteps dt (w, 0)).1 b.radius := by
    rw [hshape]; exact hf
  have h := updateLoop_contained sqrtf rng w.maxSubsteps dt (w, 0) hmax hdt b hb hs hf'
  rw [hshape] at h
  exact h

/-- C6 counterexample: a static body placed at x = 100 (radius 1/4, bounds
max x = 15) is still at x = 100 after an `update` call — boundary resolution
skips static bodies, so the claimed containment of ALL bodies fails. -/
theorem static_body_escapes_bounds :
    staticOut.isStatic = true ∧
    ((PhysicsWorld.update ratSqrt halfRng worldC6x (1/60)).bodies.map
      (fun b => b.position)) = [⟨100, 5, 0⟩] ∧
    ¬ ((100 : ℚ) ≤ worldC6x.maxX - staticOut.radius) :=
  ⟨rfl, by with_unfolding_all rfl,
    by norm_num [worldC6x, defaultWorld, staticOut, PhysicsBody.ctor]⟩

/-- Witness for C6 (amended) on a world holding one (held, hence motionless)
ball well inside the room. -/
theorem update_contains_bodies_witness :
    1 ≤ worldC6w.maxSubsteps ∧ (0 : ℚ) < 1/60 ∧
    heldBallC3 ∈ (PhysicsWorld.update ratSqrt halfRng worldC6w (1/60)).bodies ∧
    heldBallC3.isStatic = false ∧ fitsIn worldC6w heldBallC3.radius ∧
    containedIn worldC6w heldBallC3 := by
  have h1 : 1 ≤ worldC6w.maxSubsteps := by norm_num [worldC6w, defaultWorld]
  have h2 : (0 : ℚ) < 1/60 := by norm_num
  have hlist : (PhysicsWorld.update ratSqrt halfRng worldC6w (1/60)).bodies =
      [heldBallC3] := by with_unfolding_all rfl
  have hmem : heldBallC3 ∈ (PhysicsWorld.update ratSqrt halfRng worldC6w (1/60)).bodies := by
    rw [hlist]; exact List.mem_singleton.mpr rfl
  have hfit : fitsIn worldC6w heldBallC3.radius := by
    norm_num [fitsIn, worldC6w, defaultWorld, heldBallC3, Ball.ctor, PhysicsBody.ctor]
  exact ⟨h1, h2, hmem, rfl, hfit,
    update_contains_bodies ratSqrt halfRng worldC6w (1/60) h1 h2 heldBallC3 hmem rfl hfit⟩

/-! Inactive bodies and the collision scan. -/

theorem isCollidingWith_false_left (a b : PhysicsBody) (h : a.isActive = false) :
    a.isCollidingWith b = false := by
  simp [PhysicsBody.isCollidingWith, h]

theorem isCollidingWith_false_right (a b : PhysicsBody) (h : b.isActive = false) :
    a.isCollidingWith b = false := by
  simp [PhysicsBody.isCollidingWith, h]

theorem resolvePair_noop (sqrtf : ℚ → ℚ) (rng : ℕ → ℚ) (k : ℕ) (a b : PhysicsBody)
    (h : a.isCollidingWith b = false) :
    resolvePair sqrtf rng k a b = (a, b, k) := by
  rw [resolvePair, if_neg (by simp [h])]

theorem sweep_inactive_head (sqrtf : ℚ → ℚ) (rng : ℕ → ℚ) (a : PhysicsBody)
    (h : a.isActive = false) :
    ∀ (rest : List PhysicsBody) (k : ℕ), sweep sqrtf rng a rest k = (a, rest, k) := by
  intro rest
  induction rest with
  | nil => intro k; rfl
  | cons b tl ih =>
    intro k
    rw [sweep, resolvePair_noop sqrtf rng k a b (isCollidingWith_false_left a b h)]
    simp only
    rw [ih k]

theorem sweep_preserves_inactive (sqrtf : ℚ → ℚ) (rng : ℕ → ℚ) :
    ∀ (rest : List PhysicsBody) (a : PhysicsBody) (k j : ℕ) (x : PhysicsBody),
      rest.get? j = some x → x.isActive = false →
      (sweep sqrtf rng a rest k).2.1.get? j = some x := by
  intro rest
  induction rest with
  | nil => intro a k j x hx; simp at hx
  | cons b tl ih =>
    intro a k j x hx hact
    cases j with
    | zero =>
      rw [List.get?] at hx
      injection hx with hx
      subst hx
      rw [sweep, resolvePair_noop sqrtf rng k a b (isCollidingWith_false_right a b hact)]
      rfl
    | succ j' =>
      rw [List.get?] at hx
      rw [sweep]
      simp only [List.get?]
      exact ih _ _ j' x hx hact

theorem handleCollisionsAux_preserves_inactive (sqrtf : ℚ → ℚ) (rng : ℕ → ℚ) :
    ∀ (fuel : ℕ) (bs : List PhysicsBody) (k i : ℕ) (x : PhysicsBody),
      bs.get? i = some x → x.isActive = false →
      (handleCollisionsAux sqrtf rng fuel bs k).1.get? i = some x := by
  intro fuel
  induction fuel with
  | zero => intro bs k i x hx _; exact hx
  | succ n ih =>
    intro bs k i x hx hact
    cases bs with
    | nil => simp at hx
    | cons a rest =>
      cases i with
      | zero =>
        rw [List.get?] at hx
        injection hx with hx
        subst hx
        rw [handleCollisionsAux, sweep_inactive_head sqrtf rng a hact rest k]
        rfl
      | succ i' =>
        rw [List.get?] at hx
        rw [handleCollisionsAux]
        simp only [List.get?]
        exact ih _ _ i' x (sweep_preserves_inactive sqrtf rng rest a k i' x hx hact) hact

theorem dispatchUpdate_inactive_nonball (b : PhysicsBody) (dt : ℚ)
    (hact : b.isActive = false) (hball : b.isBall = false) :
    b.dispatchUpdate dt = b := by
  rw [PhysicsBody.dispatchUpdate, if_neg (by simp [hball]),
    PhysicsBody.update, if_pos (Or.inl hact)]

theorem clampAxis_id (lo hi r e p v : ℚ) (h1 : lo ≤ p - r) (h2 : p + r ≤ hi) :
    clampAxis lo hi r e p v = (p, v, false) := by
  rw [clampAxis, if_neg (not_lt.mpr h1), if_neg (not_lt.mpr h2)]

theorem handleWorldBoundary_inside_noop (w : PhysicsWorld) (b : PhysicsBody)
    (hin : strictlyInside w b) : handleWorldBoundary w b = b := by
  obtain ⟨⟨hx1, hx2⟩, ⟨hy1, hy2⟩, ⟨hz1, hz2⟩⟩ := hin
  by_cases hs : b.isStatic = true
  · rw [handleWorldBoundary, if_pos hs]
  · rw [handleWorldBoundary, if_neg hs]
    simp only [
      clampAxis_id w.minX w.maxX b.radius b.restitution b.position.x b.velocity.x hx1 hx2,
      clampAxis_id w.minY w.maxY b.radius b.restitution b.position.y b.velocity.y hy1 hy2,
      clampAxis_id w.minZ w.maxZ b.radius b.restitution b.position.z b.velocity.z hz1 hz2]
    simp

theorem substep_inactive_get (sqrtf : ℚ → ℚ) (rng : ℕ → ℚ) (step : ℚ)
    (s : PhysicsWorld × ℕ) (i : ℕ) (b : PhysicsBody)
    (hb : s.1.bodies.get? i = some b) (hact : b.isActive = false)
    (hball : b.isBall = false) (hin : strictlyInside s.1 b) :
    (substep sqrtf rng step s).1.bodies.get? i = some b := by
  have h1 : (s.1.bodies.map (fun b => b.dispatchUpdate step)).get? i = some b := by
    rw [List.get?_map, hb, Option.map_some']
    rw [dispatchUpdate_inactive_nonball b step hact hball]
  have h2 := handleCollisionsAux_preserves_inactive sqrtf rng
    (s.1.bodies.map (fun b => b.dispatchUpdate step)).length
    (s.1.bodies.map (fun b => b.dispatchUpdate step)) s.2 i b h1 hact
  simp only [substep, handleWorldBoundaries, handleCollisions]
  rw [List.get?_map, h2, Option.map_some']
  rw [handleWorldBoundary_inside_noop s.1 b hin]

theorem updateLoop_inactive_get (sqrtf : ℚ → ℚ) (rng : ℕ → ℚ) :
    ∀ (fuel : ℕ) (r : ℚ) (s : PhysicsWorld × ℕ) (i : ℕ) (b : PhysicsBody),
      s.1.bodies.get? i = some b → b.isActive = false → b.isBall = false →
      strictlyInside s.1 b →
      (updateLoop sqrtf rng fuel r s).1.bodies.get? i = some b := by
  intro fuel
  induction fuel with
  | zero => intro r s i b hb _ _ _; exact hb
  | succ n ih =>
    intro r s i b hb hact hball hin
    by_cases hr : 0 < r
    · rw [updateLoop, if_pos hr]
      exact ih _ _ i b
        (substep_inactive_get sqrtf rng (min r s.1.timeStep) s i b hb hact hball hin)
        hact hball hin
    · rw [updateLoop, if_neg hr]
      exact hb

/-- C8 (amended): a body with `isActive = false` is skipped by integration
(`PhysicsBody::update` returns early) and can never collide
(`isCollidingWith` requires both bodies active), but `handleWorldBoundaries`
skips only static bodies — so an inactive plain (non-Ball) body is unchanged
by a `PhysicsWorld::update` call provided it lies within the bounds (an
inactive body outside the bounds is still clamped, and an unheld inactive
Ball still receives `Ball::update`'s spin damping and floor clamp). -/
theorem update_skips_inactive_inside (sqrtf : ℚ → ℚ) (rng : ℕ → ℚ)
    (w : PhysicsWorld) (dt : ℚ) (i : ℕ) (b : PhysicsBody)
    (hb : w.bodies.get? i = some b) (hact : b.isActive = false)
    (hball : b.isBall = false) (hin : strictlyInside w b) :
    (PhysicsWorld.update sqrtf rng w dt).bodies.get? i = some b :=
  updateLoop_inactive_get sqrtf rng w.maxSubsteps dt (w, 0) i b hb hact hball hin

/-- C8 counterexample: an inactive non-static body outside the bounds is NOT
skipped by the update — boundary resolution clamps its position from
`(100,5,0)` to `(14.75,5,0)` and reflects its velocity from `(1,0,0)` to
`(-0.7,0,0)`, although `isActive = false`. -/
theorem inactive_body_clamped :
    inactiveOut.isActive = false ∧
    worldC8.bodies.get? 0 = some inactiveOut ∧
    inactiveOut.position = ⟨100, 5, 0⟩ ∧ inactiveOut.velocity = ⟨1, 0, 0⟩ ∧
    ((PhysicsWorld.update ratSqrt halfRng worldC8 (1/60)).bodies.map
      (fun b => (b.position, b.velocity))) = [(⟨59/4, 5, 0⟩, ⟨-7/10, 0, 0⟩)] :=
  ⟨rfl, rfl, rfl, rfl, by with_unfolding_all rfl⟩

/-- Witness for C8 (amended) on an inactive body well inside the room. -/
theorem update_skips_inactive_inside_witness :
    worldC8w.bodies.get? 0 = some inactiveIn ∧ inactiveIn.isActive = false ∧
    inactiveIn.isBall = false ∧ strictlyInside worldC8w inactiveIn ∧
    (PhysicsWorld.update ratSqrt halfRng worldC8w (1/60)).bodies.get? 0 =
      some inactiveIn := by
  have hin : strictlyInside worldC8w inactiveIn := by
    norm_num [strictlyInside, worldC8w, defaultWorld, inactiveIn, PhysicsBody.ctor]
  exact ⟨rfl, rfl, rfl, hin,
    update_skips_inactive_inside ratSqrt halfRng worldC8w (1/60) 0 inactiveIn
      rfl rfl rfl hin⟩

/-! A world of held balls and static plain bodies, pairwise non-overlapping
and inside the bounds, is completely frozen. -/

theorem map_id_of_mem {α : Type} (f : α → α) :
    ∀ (l : List α), (∀ x ∈ l, f x = x) → l.map f = l := by
  intro l
  induction l with
  | nil => intro _; rfl
  | cons a tl ih =>
    intro h
    rw [List.map_cons, h a (List.mem_cons_self a tl),
      ih (fun x hx => h x (List.mem_cons_of_mem a hx))]

theorem dispatchUpdate_frozen (b : PhysicsBody) (dt : ℚ) (h : frozenBody b) :
    b.dispatchUpdate dt = b := by
  rcases h with ⟨h1, h2⟩ | ⟨h1, h2⟩
  · rw [PhysicsBody.dispatchUpdate, if_pos h1, Ball.update, if_pos h2]
  · rw [PhysicsBody.dispatchUpdate, if_neg (by simp [h1]),
      PhysicsBody.update, if_pos (Or.inr h2)]

theorem sweep_no_collisions (sqrtf : ℚ → ℚ) (rng : ℕ → ℚ) :
    ∀ (rest : List PhysicsBody) (a : PhysicsBody) (k : ℕ),
      (∀ x ∈ rest, a.isCollidingWith x = false) →
      sweep sqrtf rng a rest k = (a, rest, k) := by
  intro rest
  induction rest with
  | nil => intro a k _; rfl
  | cons b tl ih =>
    intro a k h
    rw [sweep, resolvePair_noop sqrtf rng k a b (h b (List.mem_cons_self b tl))]
    simp only
    rw [ih a k (fun x hx => h x (List.mem_cons_of_mem b hx))]

theorem handleCollisionsAux_pairwise_noop (sqrtf : ℚ → ℚ) (rng : ℕ → ℚ) :
    ∀ (fuel : ℕ) (bs : List PhysicsBody) (k : ℕ),
      List.Pairwise (fun a b => a.isCollidingWith b = false) bs →
      handleCollisionsAux sqrtf rng fuel bs k = (bs, k) := by
  intro fuel
  induction fuel with
  | zero => intro bs k _; rfl
  | succ n ih =>
    intro bs k hp
    cases bs with
    | nil => rfl
    | cons a rest =>
      obtain ⟨hhead, htail⟩ := List.pairwise_cons.mp hp
      rw [handleCollisionsAux, sweep_no_collisions sqrtf rng rest a k hhead]
      simp only
      rw [ih rest k htail]

theorem substep_frozen (sqrtf : ℚ → ℚ) (rng : ℕ → ℚ) (step : ℚ)
    (w : PhysicsWorld) (k : ℕ)
    (hfrozen : ∀ b ∈ w.bodies, frozenBody b)
    (hpair : List.Pairwise (fun a b => a.isCollidingWith b = false) w.bodies)
    (hin : ∀ b ∈ w.bodies, strictlyInside w b) :
    substep sqrtf rng step (w, k) = (w, k) := by
  have h1 : w.bodies.map (fun b => b.dispatchUpdate step) = w.bodies :=
    map_id_of_mem _ _ (fun b hb => dispatchUpdate_frozen b step (hfrozen b hb))
  have h3 : w.bodies.map (handleWorldBoundary w) = w.bodies :=
    map_id_of_mem _ _ (fun b hb => handleWorldBoundary_inside_noop w b (hin b hb))
  simp only [substep, handleWorldBoundaries, handleCollisions, h1]
  rw [handleCollisionsAux_pairwise_noop sqrtf rng w.bodies.length w.bodies k hpair]
  simp only [h3]

theorem updateLoop_frozen (sqrtf : ℚ → ℚ) (rng : ℕ → ℚ) (w : PhysicsWorld)
    (hfrozen : ∀ b ∈ w.bodies, frozenBody b)
    (hpair : List.Pairwise (fun a b => a.isCollidingWith b = false) w.bodies)
    (hin : ∀ b ∈ w.bodies, strictlyInside w b) :
    ∀ (fuel : ℕ) (r : ℚ) (k : ℕ), updateLoop sqrtf rng fuel r (w, k) = (w, k) := by
  intro fuel
  induction fuel with
  | zero => intro r k; rfl
  | succ n ih =>
    intro r k
    by_cases hr : 0 < r
    · rw [updateLoop, if_pos hr]
      show updateLoop sqrtf rng n (r - min r w.timeStep)
        (substep sqrtf rng (min r w.timeStep) (w, k)) = (w, k)
      rw [substep_frozen sqrtf rng (min r w.timeStep) w k hfrozen hpair hin, ih]
    · rw [updateLoop, if_neg hr]

/-- C3 (amended): a held ball is excluded from integration (`Ball::update` is
a no-op while `isHeld`), but NOT from pairwise collision resolution or
boundary clamping, which never check `isHeld`; its position is unchanged by
`update` when it overlaps no other body and everything else is held or
static — here: in a world whose bodies are all held balls or static plain
bodies, pairwise non-overlapping and inside the bounds, `update` changes
nothing at all. An overlapping body does move a held ball (see the
counterexample). -/
theorem heldBall_frozen_world (sqrtf : ℚ → ℚ) (rng : ℕ → ℚ) (w : PhysicsWorld)
    (dt : ℚ)
    (hfrozen : ∀ b ∈ w.bodies, frozenBody b)
    (hpair : List.Pairwise (fun a b => a.isCollidingWith b = false) w.bodies)
    (hin : ∀ b ∈ w.bodies, strictlyInside w b) :
    (∀ (b : PhysicsBody) (dt' : ℚ), b.isHeld = true → Ball.update b dt' = b) ∧
    PhysicsWorld.update sqrtf rng w dt = w := by
  refine ⟨fun b dt' h => by rw [Ball.update, if_pos h], ?_⟩
  rw [PhysicsWorld.update, updateLoop_frozen sqrtf rng w hfrozen hpair hin]

/-- C3 counterexample: a held ball at (0,5,0) overlapped by a static block at
(0.3,5,0) is moved by `update` to (-0.152,5,0) — the positional correction of
`resolveCollision` displaces it although `isHeld = true`, because
`handleCollisions` never checks `isHeld`. -/
theorem held_ball_moved_by_collision :
    heldBallC3.isHeld = true ∧ heldBallC3.position = ⟨0, 5, 0⟩ ∧
    worldC3.bodies.get? 0 = some heldBallC3 ∧
    ((PhysicsWorld.update ratSqrt halfRng worldC3 (1/60)).bodies.map
      (fun b => b.position)) = [⟨-19/125, 5, 0⟩, ⟨3/10, 5, 0⟩] ∧
    (⟨-19/125, 5, 0⟩ : Vector3) ≠ (⟨0, 5, 0⟩ : Vector3) :=
  ⟨rfl, rfl, rfl, by with_unfolding_all rfl,
    of_decide_eq_true (by with_unfolding_all rfl)⟩

/-- Witness for C3 (amended) on a frozen world: a held ball plus a distant
static block. -/
theorem heldBall_frozen_world_witness :
    (∀ b ∈ frozenWorld.bodies, frozenBody b) ∧
    List.Pairwise (fun a b => a.isCollidingWith b = false) frozenWorld.bodies ∧
    (∀ b ∈ frozenWorld.bodies, strictlyInside frozenWorld b) ∧
    (∀ (b : PhysicsBody) (dt' : ℚ), b.isHeld = true → Ball.update b dt' = b) ∧
    PhysicsWorld.update ratSqrt halfRng frozenWorld (1/30) = frozenWorld := by
  have hfrozen : ∀ b ∈ frozenWorld.bodies, frozenBody b := by
    intro b hb
    rcases List.mem_cons.mp hb with h | h
    · subst h; exact Or.inl ⟨rfl, rfl⟩
    · rcases List.mem_cons.mp h with h' | h'
      · subst h'; exact Or.inr ⟨rfl, rfl⟩
      · simp at h'
  have hpair : List.Pairwise (fun a b => a.isCollidingWith b = false)
      frozenWorld.bodies := by
    refine List.pairwise_cons.mpr ⟨?_, List.pairwise_singleton _ _⟩
    intro x hx
    rcases List.mem_cons.mp hx with h | h
    · subst h; with_unfolding_all rfl
    · simp at h
  have hin : ∀ b ∈ frozenWorld.bodies, strictlyInside frozenWorld b := by
    intro b hb
    rcases List.mem_cons.mp hb with h | h
    · subst h
      norm_num [strictlyInside, frozenWorld, defaultWorld, heldBallC3,
        Ball.ctor, PhysicsBody.ctor]
    · rcases List.mem_cons.mp h with h' | h'
      · subst h'
        norm_num [strictlyInside, frozenWorld, defaultWorld, farBlock,
          PhysicsBody.ctor]
      · simp at h'
  have h := heldBall_frozen_world ratSqrt halfRng frozenWorld (1/30)
    hfrozen hpair hin
  exact ⟨hfrozen, hpair, hin, h.1, h.2⟩

end Phys
